/-
Verification of the DC2 multi-sensor data-collection orchestrator.

Shallow embedding of the Python sources (DC2.py, FLIR.py, Microphone.py,
Thermocouple.py, LEMBox.py, RSI.py) into Lean 4.  Pure computations are
translated to Lean functions; the stateful controller and pipeline loops are
modelled by explicit state records, per-iteration step functions and, for the
imaging producer/consumer pipeline, an inductive step relation on a pipeline
state.  Machine floats carrying timestamps are modelled by exact rationals.
-/
import Mathlib

namespace DC2

/-! ## Controller state and pipeline loop guards (DC2.py, RSI.py, FLIR.py)

`SysState` holds the two shared flags of `DataCollectionSystem`:
`stop_flag` (a `threading.Event`, the shared cancellation token) and
`is_collecting` (a plain boolean attribute).  Each collection loop in the
source polls one of the two once per iteration; we embed each loop's
continuation condition as a guard function of the shared state. -/

structure SysState where
  stop_flag : Bool
  is_collecting : Bool
  deriving DecidableEq, Repr

/-- DC2.py `thermocouple_collection`: `while self.is_collecting:` —
the loop runs another iteration iff `is_collecting` is set. -/
def thermocoupleContinues (s : SysState) : Bool :=
  s.is_collecting

/-- DC2.py `microphone_collection`: `while self.is_collecting:`. -/
def microphoneContinues (s : SysState) : Bool :=
  s.is_collecting

/-- DC2.py `lembox_collection`: `while self.is_collecting:`. -/
def lemboxContinues (s : SysState) : Bool :=
  s.is_collecting

/-- FLIR.py `frame_reader`: `while not stop_flag.is_set():`. -/
def flirReaderContinues (s : SysState) : Bool :=
  !s.stop_flag

/-- RSI.py `collect_raw_data`: `while not (stop_flag and stop_flag.is_set()) and running:`
(`running` is the module-global flag, normally `True`). -/
def robotReceiveContinues (s : SysState) (running : Bool) : Bool :=
  !s.stop_flag && running

/-- DC2.py `stop_collection` effect on the shared flags:
`self.stop_flag.set()` then `self.is_collecting = False`. -/
def stop_collection (_s : SysState) : SysState :=
  { stop_flag := true, is_collecting := false }

/-- DC2.py `start_collection` wait loop (lines 281–286), one iteration:
`while self.is_collecting:` then `if keyboard.is_pressed('q'): self.stop_collection(); break`.
Returns the state after the iteration and whether the loop continues.
The loop reads only `is_collecting` and the keyboard; it never reads
`stop_flag`. -/
def controllerWaitStep (s : SysState) (qPressed : Bool) : SysState × Bool :=
  if s.is_collecting then
    if qPressed then (stop_collection s, false)
    else (s, true)
  else (s, false)

/-! ## Sensor availability, initialization and thread start (DC2.py) -/

/-- The five sensor kinds managed by `DataCollectionSystem`. -/
inductive Sensor where
  | robot | microphone | flir | thermocouple | lembox
  deriving DecidableEq, Repr

/-- `self.active_sensors` is a Python dict keyed by sensor name; an entry may
be absent (`dict.get` returns `None`), `False` or `True`. -/
def ActiveMap := Sensor → Option Bool

/-- Python's `self.active_sensors.get(name)` is truthy iff the key is present
and bound to `True`. -/
def activeGet (m : ActiveMap) (s : Sensor) : Bool :=
  m s = some true

/-- DC2.py `initialize_sensors` (lines 107–149): the sensors for which the
initialization branch runs.  FLIR is initialized iff `active_sensors.get('flir')`,
the thermocouple DAQ iff `active_sensors.get('thermocouple')`, the microphone
branch runs iff `active_sensors.get('microphone')`; robot and LEM Box have no
initialization branch there. -/
def initializedSensors (m : ActiveMap) : List Sensor :=
  (if activeGet m .flir then [Sensor.flir] else []) ++
  (if activeGet m .thermocouple then [Sensor.thermocouple] else []) ++
  (if activeGet m .microphone then [Sensor.microphone] else [])

/-- DC2.py `start_collection` (lines 264–274): the pipeline threads appended
to `self.threads`, in source order.  The FLIR thread additionally requires
`self.flir_collector` to be non-None. -/
def startedThreads (m : ActiveMap) (flirCollectorPresent : Bool) : List Sensor :=
  (if activeGet m .robot then [Sensor.robot] else []) ++
  (if activeGet m .thermocouple then [Sensor.thermocouple] else []) ++
  (if activeGet m .microphone then [Sensor.microphone] else []) ++
  (if activeGet m .lembox then [Sensor.lembox] else []) ++
  (if activeGet m .flir && flirCollectorPresent then [Sensor.flir] else [])

/-! ## `verify_sensors` and `main` (DC2.py) -/

/-- All sensor kinds, in the order `verify_sensors` probes them. -/
def allSensors : List Sensor :=
  [.robot, .microphone, .flir, .thermocouple, .lembox]

/-- DC2.py `verify_sensors`: every probe branch stores its boolean outcome in
`active_sensors`, so afterwards every key is present. -/
def verifySensorsMap (probe : Sensor → Bool) : ActiveMap :=
  fun s => some (probe s)

/-- DC2.py `verify_sensors` return value: `any(self.active_sensors.values())`. -/
def verifySensorsResult (probe : Sensor → Bool) : Bool :=
  allSensors.any probe

/-- Outcome of `main` relevant to the zero-sensor scenario. -/
structure MainOutcome where
  abortMessage : Option String
  dirCreated : Bool
  deriving DecidableEq, Repr

/-- DC2.py `main` (lines 307–328): if `verify_sensors()` is falsy it prints
"No sensors detected. Please check connections." and returns, before
`prepare_collection` (which is where the output directory is selected and
created).  Otherwise the run proceeds and `prepare_collection` creates the
directory iff the operator selects one. -/
def mainRun (probe : Sensor → Bool) (dirSelected : Bool) : MainOutcome :=
  if verifySensorsResult probe then
    { abortMessage := none, dirCreated := dirSelected }
  else
    { abortMessage := some "No sensors detected. Please check connections."
      dirCreated := false }

end DC2

namespace Thermocouple

/-! ## ThermocoupleDAQ.close and write_to_csv (Thermocouple.py) -/

/-- Resource-relevant state of a `ThermocoupleDAQ`: whether `self.task` is a
live task object (non-None) and the `is_initialized` flag. -/
structure DAQState where
  taskPresent : Bool
  is_initialized : Bool
  deriving DecidableEq, Repr

/-- Thermocouple.py `ThermocoupleDAQ.close` (lines 53–58):
`if self.task: self.task.close(); self.task = None` then
`self.is_initialized = False`.  Returns the new state and whether the
underlying `task.close()` release call was made. -/
def daqClose (s : DAQState) : DAQState × Bool :=
  ({ taskPresent := false, is_initialized := false }, s.taskPresent)

/-- One call to Thermocouple.py `write_to_csv`: its mutable state is the
function attribute `write_to_csv.start_time` (absent before the first
successful call).  `temps = none` models `temperatures is None`, which
returns `False` before the attribute is touched and writes nothing.
Otherwise the attribute is set on first use and the row's
'Relative Time (s)' field is `timestamp - write_to_csv.start_time`,
regardless of `filename` (the filename only selects the file appended to). -/
structure CsvCall where
  tempsPresent : Bool
  timestamp : ℚ
  filename : String

/-- Effect of one `write_to_csv` call: new `start_time` attribute state and
the relative time written (`none` when nothing was written). -/
def writeToCsv (startTime : Option ℚ) (c : CsvCall) : Option ℚ × Option ℚ :=
  if c.tempsPresent then
    let st := startTime.getD c.timestamp
    (some st, some (c.timestamp - st))
  else
    (startTime, none)

/-- Run a sequence of `write_to_csv` calls, collecting the relative times
written. -/
def writeToCsvRun (startTime : Option ℚ) : List CsvCall → Option ℚ × List (Option ℚ)
  | [] => (startTime, [])
  | c :: rest =>
    let (st, r) := writeToCsv startTime c
    let (stFinal, rs) := writeToCsvRun st rest
    (stFinal, r :: rs)

end Thermocouple

namespace LEMBox

/-- Resource-relevant state of a `LEMBoxCollector`: whether `self.process`
is a live subprocess handle (non-None). -/
structure LEMState where
  processPresent : Bool
  deriving DecidableEq, Repr

/-- LEMBox.py `LEMBoxCollector.stop_recording` (lines 97–109):
`if self.process:` terminate/wait/kill the process, then `self.process = None`.
Returns the new state and whether the process was actually terminated. -/
def stop_recording (s : LEMState) : LEMState × Bool :=
  ({ processPresent := false }, s.processPresent)

end LEMBox

namespace FLIR

/-! ## FLIRCollector: cleanup, frame queue, producer/consumer (FLIR.py) -/

/-- Resource-relevant state of a `FLIRCollector` for `cleanup`:
whether `self.camera` and `self.system` are non-None, plus
`self.is_initialized`. -/
structure FLIRState where
  cameraPresent : Bool
  is_initialized : Bool
  systemPresent : Bool
  deriving DecidableEq, Repr

/-- FLIR.py `FLIRCollector.cleanup` (lines 158–170):
`if self.camera:` then (inside try) `if self.is_initialized: self.camera.uninitialize()`
and `self.is_initialized = False`; then `if self.system:
self.system.ReleaseInstance(); self.system = None`.  `self.camera` is never
cleared.  Returns the new state, whether `camera.uninitialize()` was called
and whether `system.ReleaseInstance()` was called. -/
def cleanup (s : FLIRState) : FLIRState × Bool × Bool :=
  ({ cameraPresent := s.cameraPresent
     is_initialized := if s.cameraPresent then false else s.is_initialized
     systemPresent := false },
   s.cameraPresent && s.is_initialized,
   s.systemPresent)

/-- FLIR.py `FLIRCollector.__init__`: `self.frame_queue = queue.Queue(maxsize=30)`. -/
def frameQueueMax : ℕ := 30

/-- FLIR.py `read_frame` line 120: `self.frame_queue.put((image_result, timestamp))`.
`queue.Queue.put` with default `block=True, timeout=None` appends immediately
when the queue holds fewer than `maxsize` items and otherwise blocks until a
slot frees.  `some q'` is an immediately completed put with resulting queue
contents `q'`; `none` means the call is still blocked while the queue stays
full (the frame is retained by the blocked producer, not dropped). -/
def readFrameEnqueue {α : Type} (q : List α) (f : α) : Option (List α) :=
  if q.length < frameQueueMax then some (q ++ [f]) else none

/-! ### Producer/consumer pipeline of `start_flir_collection_thread`

State of one imaging run (frames abstracted to naturals):
`toProduce` are the frames the producer (`frame_reader` calling `read_frame`)
has yet to capture, `queue` is `frame_queue`'s contents, `persisted` are the
frames written by `write_frame` in the order `save_frames` dequeued them,
`producerDone` is `collector.is_initialized = False` (set in
`start_flir_collection_thread` only after `read_thread.join()`), and
`consumerExited` records that `save_frames` took its `break`. -/

structure PipeState where
  toProduce : List ℕ
  queue : List ℕ
  persisted : List ℕ
  producerDone : Bool
  consumerExited : Bool
  deriving DecidableEq, Repr

/-- Scheduler events of the two-thread pipeline. -/
inductive PipeEvent where
  | produce | consume | producerStop | consumerExit
  deriving DecidableEq, Repr

/-- One scheduled step of the pipeline; `none` when the event is not enabled
in the given state.
* `produce`: `read_frame` runs `frame_queue.put(...)`; only while the producer
  is still running, and the blocking put completes only while the queue has a
  free slot (FLIR.py line 120, maxsize 30).
* `consume`: `save_frames` gets a frame (`get(timeout=1)` succeeds only on a
  nonempty queue), writes it via `write_frame` and marks `task_done`; only
  before the consumer's `break`.
* `producerStop`: `start_flir_collection_thread` sets
  `collector.is_initialized = False`, which happens only after
  `read_thread.join()`, i.e. after the producer produced all its frames.
* `consumerExit`: `save_frames` breaks only when `get` raised `queue.Empty`
  (queue empty) and `is_initialized` is already `False`. -/
def pipeStepFn (s : PipeState) : PipeEvent → Option PipeState
  | .produce =>
    match s.toProduce with
    | [] => none
    | f :: rest =>
      if s.producerDone then none
      else if s.queue.length < frameQueueMax then
        some { s with toProduce := rest, queue := s.queue ++ [f] }
      else none
  | .consume =>
    if s.consumerExited then none
    else
      match s.queue with
      | [] => none
      | f :: rest => some { s with queue := rest, persisted := s.persisted ++ [f] }
  | .producerStop =>
    if s.toProduce = [] && !s.producerDone then some { s with producerDone := true }
    else none
  | .consumerExit =>
    if s.queue = [] && s.producerDone && !s.consumerExited then
      some { s with consumerExited := true }
    else none

/-- Run the pipeline under a scheduler-chosen event sequence; `none` if some
event was not enabled. -/
def pipeRun (s : PipeState) : List PipeEvent → Option PipeState
  | [] => some s
  | e :: es =>
    match pipeStepFn s e with
    | none => none
    | some s' => pipeRun s' es

/-- Initial state of a run that will produce the given frame sequence. -/
def pipeInit (frames : List ℕ) : PipeState :=
  { toProduce := frames, queue := [], persisted := [], producerDone := false
    consumerExited := false }

/-- Inductive invariant of the pipeline: the persisted, queued and unproduced
frames always concatenate to the full production sequence, the producer-done
flag implies production is finished, and the consumer exits only with an
empty queue after the producer is done. -/
def pipeInv (frames : List ℕ) (s : PipeState) : Prop :=
  s.persisted ++ s.queue ++ s.toProduce = frames ∧
  (s.producerDone = true → s.toProduce = []) ∧
  (s.consumerExited = true → s.queue = [] ∧ s.producerDone = true)

end FLIR

namespace Microphone

/-! ## MicrophoneRecorder audio callback (Microphone.py lines 99–120) -/

/-- Microphone.py `RATE = 48000`. -/
def RATE_N : ℕ := 48000

/-- Callback-visible accumulation state: `self.sample_count` and
`self.audio_buffer` (a list of `(chunk, arrival time)` pairs, abstracted to
chunk length and arrival time). -/
structure MicCbState where
  sample_count : ℕ
  audio_buffer : List (ℕ × ℚ)
  deriving DecidableEq, Repr

/-- Microphone.py `_audio_callback` while recording: under the buffer lock,
`if self.sample_count < self.expected_samples + RATE:` append the chunk and
add its length to `sample_count`, `else` print a dropped-samples warning and
leave the buffer unchanged.  The whole body is wrapped in try/except, and the
callback always returns `(None, pyaudio.paContinue)`.  Returns the new state
and whether the chunk was accepted. -/
def audioCallback (st : MicCbState) (chunkLen : ℕ) (t : ℚ) (expected : ℕ) :
    MicCbState × Bool :=
  if st.sample_count < expected + RATE_N then
    ({ sample_count := st.sample_count + chunkLen
       audio_buffer := st.audio_buffer ++ [(chunkLen, t)] }, true)
  else
    (st, false)

/-- Run a sequence of callback invocations; each event carries the chunk
length, arrival time, and the value `self.expected_samples` held at that
moment (it is updated asynchronously by the supervising record thread). -/
def runCallbacks (st : MicCbState) : List (ℕ × ℚ × ℕ) → MicCbState
  | [] => st
  | (len, t, expected) :: rest =>
    runCallbacks (audioCallback st len t expected).1 rest

/-! ### `_save_data` timestamp reconstruction (Microphone.py lines 122–175) -/

/-- Microphone.py line 149: `sample_duration = 1.0 / RATE`. -/
def sampleDuration : ℚ := 1 / 48000

/-- `np.linspace(a, b, n)` in exact arithmetic: `n` evenly spaced points from
`a` to `b` inclusive; for `n = 1` just `[a]` (and for `n = 0` the empty
list). -/
def linspace (a b : ℚ) (n : ℕ) : List ℚ :=
  if n = 1 then [a]
  else (List.range n).map (fun (j : ℕ) => a + (j : ℚ) * ((b - a) / ((n : ℚ) - 1)))

/-- Length of the prefix of a list whose elements all equal `t` — the scan
`while chunk_timestamps[chunk_end] == current_ts: chunk_end += 1`. -/
def runLength (t : ℚ) : List ℚ → ℕ
  | [] => 0
  | x :: rest => if x = t then runLength t rest + 1 else 0

/-- The interpolation loop of `_save_data` (lines 152–171): scan
`chunk_timestamps` run by run; for a run of `chunk_size` equal timestamps
`current_ts` emit
`np.linspace(current_ts, current_ts + (chunk_size - 1) * sample_duration, chunk_size)`
and continue after the run. -/
def interpolate (l : List ℚ) : List ℚ :=
  match l with
  | [] => []
  | t :: rest =>
    let k := runLength t rest + 1
    linspace t (t + ((k : ℚ) - 1) * sampleDuration) k ++
      interpolate (rest.drop (runLength t rest))
termination_by l.length
decreasing_by
  simp only [List.length_cons, List.length_drop]
  omega

/-- `chunk_timestamps` as built by lines 131–134: every sample of a chunk is
stamped with that chunk's arrival time (`chunk_timestamps.extend([ts] * len(data))`).
A chunk is a pair (size, arrival time). -/
def buildChunkTimestamps (buffer : List (ℕ × ℚ)) : List ℚ :=
  buffer.flatMap (fun c => List.replicate c.1 c.2)

/-- The per-sample timestamps `interpolated_times` reconstructed by
`_save_data` from a recorded buffer, including the trim at lines 137–139
(`if len(all_audio) > self.expected_samples:` keep only the first
`expected_samples` entries). -/
def micReconstruct (buffer : List (ℕ × ℚ)) (expected : ℕ) : List ℚ :=
  let cts := buildChunkTimestamps buffer
  let cts := if expected < cts.length then cts.take expected else cts
  interpolate cts

/-- The exact-arithmetic value of one chunk's reconstructed timestamps:
`s` samples spaced `sampleDuration` apart starting at the chunk's arrival
time `t`. -/
def chunkTimes (t : ℚ) (s : ℕ) : List ℚ :=
  (List.range s).map (fun (j : ℕ) => t + (j : ℚ) * sampleDuration)

end Microphone

open DC2 Thermocouple LEMBox FLIR Microphone

/-! ## Theorems -/

/-- C1: the claim says the controller's wait loop observes a global abort
requested through the shared cancellation token and stops collection.  The
wait loop of `start_collection` (DC2.py lines 281–286) polls only the 'q'
key and `is_collecting` and never reads `stop_flag`: in the state left by
`robot_collection`'s error handler (`stop_flag` set, `is_collecting` still
true) with no key pressed, the loop leaves the state unchanged and continues,
and the is_collecting-polled LEM Box pipeline keeps running. -/
theorem controller_wait_ignores_abort_token :
    controllerWaitStep ⟨true, true⟩ false = (⟨true, true⟩, true) ∧
    lemboxContinues ⟨true, true⟩ = true := by
  decide

/-- C2 counterexample: the claim says every active pipeline terminates within
its latency bound once `stop_flag` is set.  In the state with `stop_flag` set
and `is_collecting` still true (exactly what a pipeline-requested abort
produces), the thermocouple and microphone loop guards still hold, so those
threads run another iteration — they poll `is_collecting`, not the token. -/
theorem pipeline_guards_ignore_token_counterexample :
    (SysState.mk true true).stop_flag = true ∧
    thermocoupleContinues ⟨true, true⟩ = true ∧
    microphoneContinues ⟨true, true⟩ = true := by
  decide

/-- C2 amended: after `stop_collection` runs — which both sets `stop_flag`
and clears `is_collecting` — every pipeline loop's guard is false at its next
iteration check, so each thread exits within one polling period (within the
documented ≤ 2× bound).  Setting `stop_flag` alone stops only the loops that
poll the token: the robot receive loop and the FLIR frame reader. -/
theorem pipelines_stop_after_stop_collection :
    ∀ (s : SysState) (b running : Bool),
      thermocoupleContinues (stop_collection s) = false ∧
      microphoneContinues (stop_collection s) = false ∧
      lemboxContinues (stop_collection s) = false ∧
      flirReaderContinues (stop_collection s) = false ∧
      robotReceiveContinues (stop_collection s) running = false ∧
      flirReaderContinues ⟨true, b⟩ = false ∧
      robotReceiveContinues ⟨true, b⟩ running = false := by
  intro s b running
  simp [stop_collection, thermocoupleContinues, microphoneContinues, lemboxContinues,
        flirReaderContinues, robotReceiveContinues]

/-- C3 counterexample: the claim says the enqueue in `read_frame` completes
for every queue state, including a full queue with a stalled consumer.
`frame_queue.put` is called with default `block=True, timeout=None`
(FLIR.py line 120): on a queue already holding 30 frames the put does not
complete while the queue stays full — with a permanently stalled consumer
the producer blocks forever. -/
theorem read_frame_put_blocks_on_full_queue :
    readFrameEnqueue (List.replicate frameQueueMax (0 : ℕ)) 0 = none := by
  decide

/-- C3 amended: the blocking put never drops a frame — it completes exactly
when the queue has a free slot, and a completed put appends precisely the
offered frame; when the queue is full (30 frames) the put blocks until the
consumer frees a slot, so a permanently stalled consumer stalls the producer
indefinitely. -/
theorem read_frame_put_no_drop :
    ∀ (q : List ℕ) (f : ℕ),
      ((readFrameEnqueue q f).isSome ↔ q.length < frameQueueMax) ∧
      (∀ q', readFrameEnqueue q f = some q' → q' = q ++ [f]) := by
  intro q f
  unfold readFrameEnqueue
  split_ifs with h <;> simp [h]

/-- Witness for C3's amended theorem at a one-frame queue. -/
theorem read_frame_put_no_drop_witness :
    (readFrameEnqueue ([1] : List ℕ) 2).isSome = true ∧ ([1, 2] : List ℕ) = [1] ++ [2] :=
  ⟨(read_frame_put_no_drop [1] 2).1.mpr (by decide),
   (read_frame_put_no_drop [1] 2).2 [1, 2] (by decide)⟩

set_option maxRecDepth 4000 in
/-- C6 counterexample: the claim says the callback never accepts more samples
than `expected_samples + RATE`.  The admission check compares the count
*before* appending (`if self.sample_count < self.expected_samples + RATE`),
so accepted samples can overshoot the bound by up to one chunk: 47 callbacks
of the stream's 1024-sample chunks arriving while `expected_samples` is still
0 are all accepted, leaving 48128 > 0 + 48000 samples in the buffer. -/
theorem callback_overshoot_counterexample :
    (runCallbacks ⟨0, []⟩ (List.replicate 47 ((1024 : ℕ), (0 : ℚ), (0 : ℕ)))).sample_count
        = 48128 ∧
    0 + RATE_N < 48128 := by
  constructor
  · rfl
  · decide

/-- C6 amended: the callback admits a chunk only when the accumulated count
is strictly below `expected_samples + RATE`, so after an accepted chunk the
count stays below `expected + RATE + chunkLen` (overshoot bounded by one
chunk); a chunk arriving at or beyond the bound is dropped with a warning and
leaves the buffer unchanged; the callback is total (never raises) and always
returns `paContinue`. -/
theorem callback_admission_bound :
    ∀ (st : MicCbState) (chunkLen : ℕ) (t : ℚ) (expected : ℕ),
      ((audioCallback st chunkLen t expected).2 = true →
        st.sample_count < expected + RATE_N ∧
        (audioCallback st chunkLen t expected).1.sample_count <
          expected + RATE_N + chunkLen) ∧
      ((audioCallback st chunkLen t expected).2 = false →
        (audioCallback st chunkLen t expected).1 = st) := by
  intro st c t e
  unfold audioCallback
  split_ifs with h <;> simp [h]

/-- Witness for C6's amended theorem: a first 1024-sample chunk is accepted
and the count stays below the slack-plus-chunk bound. -/
theorem callback_admission_bound_witness :
    (⟨0, []⟩ : MicCbState).sample_count < 0 + RATE_N ∧
    (audioCallback ⟨0, []⟩ 1024 0 0).1.sample_count < 0 + RATE_N + 1024 :=
  (callback_admission_bound ⟨0, []⟩ 1024 0 0).1 (by decide)

/-- Membership in a guarded singleton yields the guard and the identity. -/
lemma mem_ite_singleton {b : Bool} {x s : Sensor} (h : s ∈ if b then [x] else []) :
    b = true ∧ s = x := by
  cases b <;> simp_all

/-- C7: a sensor whose `active_sensors` entry is absent or not `True` gets no
initialization branch in `initialize_sensors` and no pipeline thread in
`start_collection`, whatever the FLIR-collector flag. -/
theorem unavailable_sensor_never_started :
    ∀ (m : ActiveMap) (fc : Bool) (s : Sensor), m s ≠ some true →
      s ∉ initializedSensors m ∧ s ∉ startedThreads m fc := by
  intro m fc s h
  have hg : activeGet m s = false := by simp [activeGet, h]
  constructor
  · intro hmem
    simp only [initializedSensors, List.mem_append] at hmem
    rcases hmem with (h1 | h1) | h1 <;>
      · obtain ⟨hb, rfl⟩ := mem_ite_singleton h1
        simp_all
  · intro hmem
    simp only [startedThreads, List.mem_append] at hmem
    rcases hmem with (((h1 | h1) | h1) | h1) | h1 <;>
      · obtain ⟨hb, rfl⟩ := mem_ite_singleton h1
        simp_all

/-- Witness for C7 at a map rejecting every sensor. -/
theorem unavailable_sensor_never_started_witness :
    Sensor.microphone ∉ initializedSensors (fun _ => some false) ∧
    Sensor.microphone ∉ startedThreads (fun _ => some false) true :=
  unavailable_sensor_never_started (fun _ => some false) true .microphone (by decide)

/-- C8: when every probe fails, `verify_sensors` reports no active sensor and
`main` returns right after printing "No sensors detected. Please check
connections.", before `prepare_collection` — so no output directory is
created, whether or not the operator would have selected one. -/
theorem no_sensors_aborts_without_dir :
    ∀ (probe : Sensor → Bool) (dirSelected : Bool), (∀ s, probe s = false) →
      mainRun probe dirSelected =
        { abortMessage := some "No sensors detected. Please check connections."
          dirCreated := false } := by
  intro probe d h
  simp [mainRun, verifySensorsResult, allSensors, h]

/-- Witness for C8 with all probes failing. -/
theorem no_sensors_aborts_without_dir_witness :
    mainRun (fun _ => false) true =
      { abortMessage := some "No sensors detected. Please check connections."
        dirCreated := false } :=
  no_sensors_aborts_without_dir (fun _ => false) true (fun _ => rfl)

/-- C9: calling each adapter's shutdown twice from any state — the second
`ThermocoupleDAQ.close`, `LEMBoxCollector.stop_recording` and
`FLIRCollector.cleanup` — releases no resource a second time (no
`task.close()`, no `process.terminate()`, no `camera.uninitialize()` or
`system.ReleaseInstance()`) and leaves the state of the first call
unchanged. -/
theorem adapters_double_shutdown_idempotent :
    ∀ (a : Thermocouple.DAQState) (b : LEMBox.LEMState) (c : FLIR.FLIRState),
      daqClose (daqClose a).1 = ((daqClose a).1, false) ∧
      stop_recording (stop_recording b).1 = ((stop_recording b).1, false) ∧
      cleanup (cleanup c).1 = ((cleanup c).1, false, false) := by
  intro a b c
  refine ⟨rfl, rfl, ?_⟩
  obtain ⟨cam, init, sys⟩ := c
  cases cam <;> simp [cleanup]

/-- Relative times written by `write_to_csv` once the baseline attribute is
set: every row is stamped against the same baseline, whatever its filename. -/
lemma writeToCsvRun_some (t0 : ℚ) (l : List CsvCall)
    (h : ∀ x ∈ l, x.tempsPresent = true) :
    writeToCsvRun (some t0) l = (some t0, l.map (fun x => some (x.timestamp - t0))) := by
  induction l with
  | nil => rfl
  | cons c rest ih =>
    have hc : c.tempsPresent = true := h c (by simp)
    have hr : ∀ x ∈ rest, x.tempsPresent = true := fun x hx => h x (by simp [hx])
    simp [writeToCsvRun, writeToCsv, hc, ih hr]

/-- C10: starting from a fresh process (no `write_to_csv.start_time`
attribute), the first successful call fixes the baseline at its own
timestamp, and every later call writes relative time
`timestamp - first call's timestamp` — the filename argument plays no part,
so a call targeting a new file is not re-based to that file's first record. -/
theorem write_to_csv_global_baseline :
    ∀ (c : CsvCall) (rest : List CsvCall), c.tempsPresent = true →
      (∀ x ∈ rest, x.tempsPresent = true) →
      (writeToCsvRun none (c :: rest)).2 =
        (c :: rest).map (fun x => some (x.timestamp - c.timestamp)) := by
  intro c rest hc hrest
  simp [writeToCsvRun, writeToCsv, hc, writeToCsvRun_some c.timestamp rest hrest]

/-- Witness for C10: two calls with different filenames; the second row is
based on the first call's timestamp, not re-based to its own file. -/
theorem write_to_csv_global_baseline_witness :
    (writeToCsvRun none
      [⟨true, 5, "thermocouple_data.csv"⟩, ⟨true, 7, "other_file.csv"⟩]).2 =
      [some 0, some 2] := by
  have h := write_to_csv_global_baseline ⟨true, 5, "thermocouple_data.csv"⟩
    [⟨true, 7, "other_file.csv"⟩] rfl (by simp)
  norm_num at h
  exact h

/-- One pipeline step preserves the drain invariant. -/
lemma pipeStepFn_inv {frames : List ℕ} {s s' : PipeState} {e : PipeEvent}
    (hinv : pipeInv frames s) (hstep : pipeStepFn s e = some s') :
    pipeInv frames s' := by
  obtain ⟨h1, h2, h3⟩ := hinv
  cases e with
  | produce =>
    simp only [pipeStepFn] at hstep
    split at hstep
    · simp at hstep
    · rename_i f rest htp
      split at hstep
      · simp at hstep
      · split at hstep
        · rename_i hpd hlen
          obtain rfl := Option.some.inj hstep
          refine ⟨?_, ?_, ?_⟩
          · rw [htp] at h1
            simp only [List.append_assoc, List.singleton_append, List.cons_append,
              List.nil_append] at h1 ⊢
            exact h1
          · intro hc
            simp only at hc
            exact absurd hc (by simpa using hpd)
          · intro hc
            simp only at hc
            exact absurd (h3 hc).2 (by simpa using hpd)
        · simp at hstep
  | consume =>
    simp only [pipeStepFn] at hstep
    split at hstep
    · simp at hstep
    · rename_i hce
      split at hstep
      · simp at hstep
      · rename_i f rest hq
        obtain rfl := Option.some.inj hstep
        refine ⟨?_, ?_, ?_⟩
        · rw [hq] at h1
          simp only [List.append_assoc, List.singleton_append, List.cons_append,
            List.nil_append] at h1 ⊢
          exact h1
        · intro hc
          simp only at hc
          exact h2 hc
        · intro hc
          simp only at hc
          exact absurd hc (by simpa using hce)
  | producerStop =>
    simp only [pipeStepFn] at hstep
    split at hstep
    · rename_i hcond
      obtain rfl := Option.some.inj hstep
      simp only [Bool.and_eq_true, Bool.not_eq_true', decide_eq_true_eq] at hcond
      refine ⟨?_, ?_, ?_⟩
      · simpa [hcond.1] using h1
      · intro _
        simpa using hcond.1
      · intro hc
        simp only at hc
        exact absurd (h3 hc).2 (by simp [hcond.2])
    · simp at hstep
  | consumerExit =>
    simp only [pipeStepFn] at hstep
    split at hstep
    · rename_i hcond
      obtain rfl := Option.some.inj hstep
      simp only [Bool.and_eq_true, Bool.not_eq_true', decide_eq_true_eq] at hcond
      exact ⟨h1, fun _ => h2 hcond.1.2, fun _ => ⟨hcond.1.1, hcond.1.2⟩⟩
    · simp at hstep

/-- Any completed run of pipeline steps preserves the drain invariant. -/
lemma pipeRun_inv {frames : List ℕ} (es : List PipeEvent) :
    ∀ s s', pipeInv frames s → pipeRun s es = some s' → pipeInv frames s' := by
  induction es with
  | nil =>
    intro s s' hinv hrun
    simp only [pipeRun, Option.some.injEq] at hrun
    exact hrun ▸ hinv
  | cons e es ih =>
    intro s s' hinv hrun
    simp only [pipeRun] at hrun
    split at hrun
    · simp at hrun
    · rename_i s1 hstep
      exact ih s1 s' (pipeStepFn_inv hinv hstep) hrun

/-- C4: in any interleaving of producer, consumer and shutdown events of the
imaging pipeline (FLIR.py `read_frame`, `save_frames`,
`start_flir_collection_thread`), if the consumer reached its exit — which
`save_frames` takes only on an empty queue after the producer has stopped —
then the persisted sequence is exactly the produced frame sequence: every
frame written exactly once, in production order, nothing stranded in the
queue. -/
theorem save_frames_drains_all_in_order (frames : List ℕ) (es : List PipeEvent)
    (s : PipeState) (hrun : pipeRun (pipeInit frames) es = some s)
    (hexit : s.consumerExited = true) :
    s.persisted = frames := by
  have hinit : pipeInv frames (pipeInit frames) := by
    exact ⟨by simp [pipeInit], by simp [pipeInit], by simp [pipeInit]⟩
  obtain ⟨h1, h2, h3⟩ := pipeRun_inv es (pipeInit frames) s hinit hrun
  obtain ⟨hq, hpd⟩ := h3 hexit
  have htp := h2 hpd
  rw [hq, htp] at h1
  simpa using h1

/-- Witness for C4: a two-frame run through produce, produce, producer stop,
consume, consume, consumer exit persists `[1, 2]`. -/
theorem save_frames_drains_all_in_order_witness :
    (⟨[], [], [1, 2], true, true⟩ : PipeState).persisted = [1, 2] :=
  save_frames_drains_all_in_order [1, 2]
    [.produce, .produce, .producerStop, .consume, .consume, .consumerExit]
    ⟨[], [], [1, 2], true, true⟩ (by decide) rfl


/-- `np.linspace` from `t` to `t + (k-1)·Δ` with `k` points is arithmetic
spacing by `Δ`. -/
lemma linspace_eq_chunkTimes (t : ℚ) (k : ℕ) (hk : 1 ≤ k) :
    linspace t (t + ((k : ℚ) - 1) * sampleDuration) k = chunkTimes t k := by
  rcases Nat.lt_or_ge k 2 with h2 | h2
  · have hk1 : k = 1 := by omega
    subst hk1
    unfold linspace
    rw [if_pos rfl]
    unfold chunkTimes
    simp [List.range_succ]
  · have hne : k ≠ 1 := by omega
    have hk0 : ((k : ℚ) - 1) ≠ 0 := by
      have h2' : (2 : ℚ) ≤ (k : ℚ) := by exact_mod_cast h2
      linarith
    unfold linspace chunkTimes
    rw [if_neg hne]
    refine List.map_congr_left ?_
    intro a _
    rw [add_sub_cancel_left, mul_div_cancel_left₀ sampleDuration hk0]

/-- The equal-timestamp scan of one cons step when the head matches. -/
lemma runLength_cons_self (t : ℚ) (l : List ℚ) :
    runLength t (t :: l) = runLength t l + 1 := by
  simp [runLength]

/-- The equal-timestamp scan stops immediately on a list not starting with `t`. -/
lemma runLength_eq_zero {t : ℚ} {l : List ℚ} (h : l.head? ≠ some t) :
    runLength t l = 0 := by
  cases l with
  | nil => rfl
  | cons x r =>
    have hx : ¬ x = t := by
      intro he
      exact h (by simp [he])
    simp [runLength, hx]

/-- The equal-timestamp scan consumes a whole replicated block. -/
lemma runLength_replicate_append (t : ℚ) (m : ℕ) (rest : List ℚ) :
    runLength t (List.replicate m t ++ rest) = m + runLength t rest := by
  induction m with
  | zero => simp
  | succ n ih =>
    rw [List.replicate_succ, List.cons_append, runLength_cons_self, ih]
    omega

/-- One pass of the interpolation loop over a chunk whose timestamp differs
from the next chunk's: it emits that chunk's `linspace` and recurses on the
remainder. -/
lemma interpolate_replicate_append (t : ℚ) (m : ℕ) (rest : List ℚ)
    (h : rest.head? ≠ some t) :
    interpolate (List.replicate (m + 1) t ++ rest) =
      chunkTimes t (m + 1) ++ interpolate rest := by
  have hr0 : runLength t rest = 0 := runLength_eq_zero h
  have hrun : runLength t (List.replicate m t ++ rest) = m := by
    simp [runLength_replicate_append, hr0]
  have hdrop : (List.replicate m t ++ rest).drop m = rest := by
    have hh := List.drop_left (List.replicate m t) rest
    rwa [List.length_replicate] at hh
  rw [List.replicate_succ, List.cons_append, interpolate]
  simp only [hrun, hdrop]
  rw [linspace_eq_chunkTimes t (m + 1) (by omega)]

/-- The interpolation loop maps each chunk of the recorded buffer to its
arithmetic timestamp ramp, provided adjacent chunks have increasing arrival
times and no chunk is empty. -/
lemma interpolate_chunks :
    ∀ (chunks : List (ℕ × ℚ)),
      List.Chain' (fun a b => a.2 < b.2) chunks → (∀ c ∈ chunks, 1 ≤ c.1) →
      interpolate (buildChunkTimestamps chunks) =
        chunks.flatMap (fun c => chunkTimes c.2 c.1) := by
  intro chunks
  induction chunks with
  | nil =>
    intro _ _
    simp [buildChunkTimestamps, interpolate]
  | cons c rest ih =>
    intro hmono hsz
    obtain ⟨sz, ts⟩ := c
    have h1 : 1 ≤ sz := hsz (sz, ts) (by simp)
    obtain ⟨m, rfl⟩ : ∃ m, sz = m + 1 := ⟨sz - 1, by omega⟩
    have hhead : (buildChunkTimestamps rest).head? ≠ some ts := by
      cases rest with
      | nil => simp [buildChunkTimestamps]
      | cons c2 r2 =>
        obtain ⟨sz2, ts2⟩ := c2
        have h2 : 1 ≤ sz2 := hsz (sz2, ts2) (by simp)
        obtain ⟨m2, rfl⟩ : ∃ m2, sz2 = m2 + 1 := ⟨sz2 - 1, by omega⟩
        have hlt : ts < ts2 := (List.chain'_cons.mp hmono).1
        simp only [buildChunkTimestamps, List.flatMap_cons, List.replicate_succ,
          List.cons_append, List.head?_cons, ne_eq, Option.some.injEq]
        exact ne_of_gt hlt
    have hszr : ∀ x ∈ rest, 1 ≤ x.1 := fun x hx => hsz x (by simp [hx])
    have hmr : List.Chain' (fun a b => a.2 < b.2) rest := hmono.tail
    have hb : buildChunkTimestamps ((m + 1, ts) :: rest) =
        List.replicate (m + 1) ts ++ buildChunkTimestamps rest := by
      simp [buildChunkTimestamps]
    rw [hb, interpolate_replicate_append ts m _ hhead, ih hmr hszr,
      List.flatMap_cons]

/-- Total length of the expanded per-sample timestamp list is the sum of the
chunk sizes. -/
lemma buildChunkTimestamps_length (chunks : List (ℕ × ℚ)) :
    (buildChunkTimestamps chunks).length = (chunks.map (fun c => c.1)).sum := by
  induction chunks with
  | nil => rfl
  | cons c rest ih =>
    simp only [buildChunkTimestamps, List.flatMap_cons, List.length_append,
      List.length_replicate, List.map_cons, List.sum_cons] at ih ⊢
    omega

/-- Last element of one chunk's reconstructed ramp. -/
lemma chunkTimes_getLast (t : ℚ) (m : ℕ) :
    (chunkTimes t (m + 1)).getLast? = some (t + (m : ℚ) * sampleDuration) := by
  simp [chunkTimes, List.range_succ]

/-- C5 counterexample: the claim quantifies over every callback sequence, but
`_save_data` first trims the buffer to `expected_samples` (Microphone.py
lines 137–139).  For a single 3-sample chunk arriving at time 0 while
`expected_samples = 2`, the reconstructed timestamps end at `1/48000`, not at
the claimed chunk end `t₁ + (s₁ - 1)/rate = 2/48000`. -/
theorem save_data_trim_counterexample :
    (micReconstruct [((3 : ℕ), (0 : ℚ))] 2).getLast? = some (1 / 48000) ∧
    (1 / 48000 : ℚ) ≠ 0 + ((3 : ℚ) - 1) * sampleDuration := by
  constructor
  · have h1 : buildChunkTimestamps [((3 : ℕ), (0 : ℚ))] = [0, 0, 0] := by
      simp [buildChunkTimestamps, List.replicate_succ]
    have h2 : micReconstruct [((3 : ℕ), (0 : ℚ))] 2 = interpolate [0, 0] := by
      simp [micReconstruct, h1]
    rw [h2, show ([0, 0] : List ℚ) = List.replicate (1 + 1) (0 : ℚ) ++ [] by simp,
      interpolate_replicate_append (0 : ℚ) 1 [] (by simp)]
    simp [chunkTimes, List.range_succ, sampleDuration, interpolate]
  · norm_num [sampleDuration]

/-- C5 amended: for every callback sequence of K chunks with sizes s₁..sₖ
arriving at strictly increasing times t₁<...<tₖ, *provided the buffered
samples do not exceed `expected_samples`* (otherwise the trailing samples are
trimmed first, shortening the last chunk), the per-sample timestamps
reconstructed by `_save_data` are the concatenation of one arithmetic ramp
per chunk; within chunk i they are monotonically non-decreasing, start at tᵢ
and end at tᵢ + (sᵢ - 1)/rate. -/
theorem save_data_interpolation (chunks : List (ℕ × ℚ)) (expected : ℕ)
    (hmono : List.Chain' (fun a b => a.2 < b.2) chunks)
    (hsz : ∀ c ∈ chunks, 1 ≤ c.1)
    (hexp : (chunks.map (fun c => c.1)).sum ≤ expected) :
    micReconstruct chunks expected = chunks.flatMap (fun c => chunkTimes c.2 c.1) ∧
    ∀ c ∈ chunks,
      (chunkTimes c.2 c.1).head? = some c.2 ∧
      (chunkTimes c.2 c.1).getLast? = some (c.2 + ((c.1 : ℚ) - 1) * sampleDuration) ∧
      List.Pairwise (· ≤ ·) (chunkTimes c.2 c.1) := by
  constructor
  · have hlen := buildChunkTimestamps_length chunks
    have hle : (buildChunkTimestamps chunks).length ≤ expected := hlen ▸ hexp
    simp only [micReconstruct]
    rw [if_neg (not_lt.mpr hle)]
    exact interpolate_chunks chunks hmono hsz
  · intro c hc
    obtain ⟨sz, ts⟩ := c
    have h1 : 1 ≤ sz := hsz (sz, ts) hc
    obtain ⟨m, rfl⟩ : ∃ m, sz = m + 1 := ⟨sz - 1, by omega⟩
    refine ⟨?_, ?_, ?_⟩
    · unfold chunkTimes
      rw [List.range_succ_eq_map]
      simp
    · rw [chunkTimes_getLast]
      congr 1
      push_cast
      ring
    · unfold chunkTimes
      rw [List.pairwise_map]
      refine List.Pairwise.imp ?_ (List.pairwise_lt_range _)
      intro i j hij
      have hcast : (i : ℚ) ≤ (j : ℚ) := by exact_mod_cast hij.le
      have hd : (0 : ℚ) ≤ sampleDuration := by norm_num [sampleDuration]
      exact add_le_add_left (mul_le_mul_of_nonneg_right hcast hd) ts

/-- Witness for C5's amended theorem: chunks of 2 and 3 samples at times 0
and 1 with 5 expected samples. -/
theorem save_data_interpolation_witness :
    micReconstruct [((2 : ℕ), (0 : ℚ)), (3, 1)] 5 =
      ([((2 : ℕ), (0 : ℚ)), (3, 1)]).flatMap (fun c => chunkTimes c.2 c.1) :=
  (save_data_interpolation [(2, 0), (3, 1)] 5
    (by simp [List.chain'_cons])
    (by simp)
    (by simp)).1
